import Mathlib

/-!
Verification of the Lightning sub-wallet lifecycle and connection-management
subsystem of coincubetech/liana (liana-gui, `app/breez`).

The Rust source is shallowly embedded:
* bytes are `Nat` (values below 256 where the source has `u8`);
* byte strings (`&[u8]`, `Vec<u8>`, UTF-8 contents of `&str`) are `List Nat`;
* `u64` arithmetic is `Nat` arithmetic reduced modulo `2 ^ 64`;
* fallible operations return `Except BreezError _`;
* the filesystem is explicit: a stored file is `Option (List Nat)`;
* randomness (the cipher nonce) is an explicit argument;
* external SDK calls (network connect / disconnect) are explicit oracle
  arguments recording their outcome, and the embedding reports whether such a
  call was attempted;
* `Arc` reference counting is explicit: each pool entry records how many
  owners besides the pool hold the manager handle, and how many owners besides
  the manager hold the inner SDK handle; `Arc::try_unwrap` succeeds exactly
  when that count is zero.
-/

namespace Breez

/-! ## Error type (src/liana-gui/src/app/breez/error.rs) -/

/-- Source `BreezError` from error.rs (the constructors the verified code paths use,
with the same names and payloads). -/
inductive BreezError where
  | NotInitialized : BreezError
  | InvalidMnemonic (msg : String) : BreezError
  | DerivationFailed (msg : String) : BreezError
  | InvalidPath (msg : String) : BreezError
  | ConnectionFailed (msg : String) : BreezError
  | Config (msg : String) : BreezError
  | PrepareFailed (msg : String) : BreezError
  | SendFailed (msg : String) : BreezError
  | LimitsFetchFailed (msg : String) : BreezError
  | SdkError (msg : String) : BreezError
  deriving DecidableEq, Repr

/-! ## XOR keystream cipher (storage.rs, `encrypt_chacha20` / `decrypt_chacha20`)

The source computes, for the byte at position `i`,
`keystream_byte = key[i % 32] ^ nonce[i % 12] ^ (i as u8)` and XORs it with the
data byte.  `xorKeystream` is that loop with the running index explicit. -/

/-- One pass of the per-byte XOR keystream loop from storage.rs, starting at
byte index `i`.  `key` models the 32-byte `[u8; 32]` key, `nonce` the 12-byte
nonce; indexing `key[i % 32]` / `nonce[i % 12]` is `List.getD` (always in
range when the lists have the source lengths). -/
def xorKeystream (key nonce : List Nat) : Nat → List Nat → List Nat
  | _, [] => []
  | i, b :: bs =>
      (b ^^^ (key.getD (i % 32) 0 ^^^ nonce.getD (i % 12) 0 ^^^ i % 256)) ::
        xorKeystream key nonce (i + 1) bs

/-- Source `encrypt_chacha20(data, key)` from storage.rs, with the randomly drawn
12-byte nonce made an explicit argument: output is `nonce ++ ciphertext`. -/
def encrypt_chacha20 (data key nonce : List Nat) : List Nat :=
  nonce ++ xorKeystream key nonce 0 data

/-- Source `decrypt_chacha20(data, key)` from storage.rs: returns the empty vector if
the input is shorter than 12 bytes, otherwise splits off the 12-byte nonce and
XORs the rest with the same keystream. -/
def decrypt_chacha20 (data key : List Nat) : List Nat :=
  if data.length < 12 then []
  else xorKeystream key (data.take 12) 0 (data.drop 12)

/-! ## The Rust `DefaultHasher` (SipHash-1-3, keys 0/0)

storage.rs derives the encryption key with
`std::collections::hash_map::DefaultHasher`, which is SipHash-1-3 with both
keys zero.  The hasher is embedded at byte level: a state vector of four
64-bit words, a tail of fewer than 8 pending bytes, and the total length
written.  `write` absorbs full 8-byte little-endian words with one SipHash
round each; `finish` folds in the length byte and the tail, applies the
three finalization rounds and XORs the state words together. -/

/-- Addition of two 64-bit words with wrap-around. -/
def wadd (a b : Nat) : Nat := (a + b) % 2 ^ 64

/-- Source `u64::rotate_left` for values below `2 ^ 64`. -/
def rotl64 (x n : Nat) : Nat := ((x <<< n) ||| (x >>> (64 - n))) % 2 ^ 64

/-- The four 64-bit state words `v0`–`v3` of SipHash. -/
structure SipVec where
  v0 : Nat
  v1 : Nat
  v2 : Nat
  v3 : Nat
  deriving DecidableEq, Repr

/-- One SipHash round. -/
def sipRound (s : SipVec) : SipVec :=
  let a0 := wadd s.v0 s.v1
  let a1 := rotl64 s.v1 13
  let b1 := a1 ^^^ a0
  let b0 := rotl64 a0 32
  let a2 := wadd s.v2 s.v3
  let a3 := rotl64 s.v3 16
  let b3 := a3 ^^^ a2
  let c0 := wadd b0 b3
  let c3 := rotl64 b3 21
  let d3 := c3 ^^^ c0
  let c2 := wadd a2 b1
  let c1 := rotl64 b1 17
  let d1 := c1 ^^^ c2
  let d2 := rotl64 c2 32
  ⟨c0, d1, d2, d3⟩

/-- Absorb one message word: `v3 ^= m`, one round (SipHash-1-3 uses a single
compression round), `v0 ^= m`. -/
def absorbWord (s : SipVec) (m : Nat) : SipVec :=
  let t := sipRound { s with v3 := s.v3 ^^^ m }
  { t with v0 := t.v0 ^^^ m }

/-- Little-endian load of a byte list into a word (`u8to64_le`). -/
def leWord (bs : List Nat) : Nat := bs.foldr (fun b acc => b % 256 + 256 * acc) 0

/-- Hasher state: state vector, pending tail bytes (fewer than 8), and the
total number of bytes written so far. -/
structure SipHasher where
  vec : SipVec
  tail : List Nat
  length : Nat
  deriving Repr

/-- Source `DefaultHasher::new()`: SipHash initial state for `k0 = k1 = 0`. -/
def DefaultHasher.new : SipHasher where
  vec := ⟨0x736f6d6570736575, 0x646f72616e646f6d, 0x6c7967656e657261, 0x7465646279746573⟩
  tail := []
  length := 0

/-- Absorb every full 8-byte word of `bs`, returning the new state vector and
the remaining (fewer than 8) bytes. -/
def absorbBlocks (v : SipVec) (bs : List Nat) : SipVec × List Nat :=
  if _h : 8 ≤ bs.length then
    absorbBlocks (absorbWord v (leWord (bs.take 8))) (bs.drop 8)
  else (v, bs)
termination_by bs.length
decreasing_by simp only [List.length_drop]; omega

/-- Source `Hasher::write`: append `msg` to the buffered tail and absorb the full
words. -/
def SipHasher.write (st : SipHasher) (msg : List Nat) : SipHasher :=
  let p := absorbBlocks st.vec (st.tail ++ msg)
  { vec := p.1, tail := p.2, length := st.length + msg.length }

/-- Source `Hasher::finish` for SipHash-1-3: fold in `(length & 0xff) << 56 | tail`,
one compression round, `v2 ^= 0xff`, three finalization rounds, XOR of the
state words. -/
def SipHasher.finish (st : SipHasher) : Nat :=
  let b := (((st.length % 256) <<< 56) ||| leWord st.tail) % 2 ^ 64
  let s0 := sipRound { st.vec with v3 := st.vec.v3 ^^^ b }
  let s1 := { s0 with v0 := s0.v0 ^^^ b, v2 := s0.v2 ^^^ 0xff }
  let s2 := sipRound (sipRound (sipRound s1))
  (s2.v0 ^^^ s2.v1 ^^^ s2.v2 ^^^ s2.v3) % 2 ^ 64

/-- Source `impl Hash for str`: write the UTF-8 bytes, then a `0xff` terminator. -/
def SipHasher.writeStr (st : SipHasher) (s : List Nat) : SipHasher :=
  (st.write s).write [0xff]

/-- UTF-8 bytes of the static salt `"coincube_lightning_v1"`. -/
def saltBytes : List Nat :=
  [99, 111, 105, 110, 99, 117, 98, 101, 95, 108, 105, 103, 104, 116, 110, 105,
   110, 103, 95, 118, 49]

/-- storage.rs `derive_encryption_key`, hashing phase: hash the network
directory path, the wallet checksum, the hostname when the `COMPUTERNAME` or
`HOSTNAME` environment variable is set (`hostname` is the chosen value, `none`
when neither is set), and the static salt, then `finish`. -/
def deriveKeyHash (network_dir wallet_checksum : List Nat)
    (hostname : Option (List Nat)) : Nat :=
  let h0 := DefaultHasher.new
  let h1 := h0.writeStr network_dir
  let h2 := h1.writeStr wallet_checksum
  let h3 := match hostname with
    | some hn => h2.writeStr hn
    | none => h2
  (h3.writeStr saltBytes).finish

/-- Source `u64::to_le_bytes`, generalized to `k` little-endian base-256 digits. -/
def leBytesAux : Nat → Nat → List Nat
  | 0, _ => []
  | k + 1, x => x % 256 :: leBytesAux k (x / 256)

/-- Source `u64::to_le_bytes`. -/
def u64ToLeBytes (x : Nat) : List Nat := leBytesAux 8 x

/-- storage.rs `derive_encryption_key`, expansion phase: 8-byte chunk `i` of
the 32-byte key is `(hash.wrapping_add(i)).to_le_bytes()`. -/
def expandKey (hash : Nat) : List Nat :=
  ((List.range 4).map (fun i => u64ToLeBytes ((hash + i) % 2 ^ 64))).flatten

/-- storage.rs `derive_encryption_key`: hash the inputs with `DefaultHasher`
and expand the 64-bit result to 32 bytes. -/
def derive_encryption_key (network_dir wallet_checksum : List Nat)
    (hostname : Option (List Nat)) : List Nat :=
  expandKey (deriveKeyHash network_dir wallet_checksum hostname)

/-! ## UTF-8 validation (`String::from_utf8` succeeds exactly on RFC 3629
valid byte sequences) -/

/-- States of the RFC 3629 UTF-8 acceptor: either at a codepoint boundary, or
expecting a byte in `[lo, hi]` followed by `more` plain continuation bytes. -/
inductive Utf8State where
  | start
  | expect (lo hi : Nat) (more : Nat)
  deriving DecidableEq, Repr

/-- One step of the RFC 3629 UTF-8 acceptor (the table `String::from_utf8`
implements): ASCII, 2-byte leads `C2..DF`, 3-byte leads `E0..EF` with the
overlong/surrogate restrictions on `E0`/`ED`, 4-byte leads `F0..F4` with the
restrictions on `F0`/`F4`. -/
def utf8Next : Utf8State → Nat → Option Utf8State
  | .start, b =>
    if b < 0x80 then some .start
    else if b < 0xC2 then none
    else if b < 0xE0 then some (.expect 0x80 0xBF 0)
    else if b = 0xE0 then some (.expect 0xA0 0xBF 1)
    else if b = 0xED then some (.expect 0x80 0x9F 1)
    else if b < 0xF0 then some (.expect 0x80 0xBF 1)
    else if b = 0xF0 then some (.expect 0x90 0xBF 2)
    else if b < 0xF4 then some (.expect 0x80 0xBF 2)
    else if b = 0xF4 then some (.expect 0x80 0x8F 2)
    else none
  | .expect lo hi more, b =>
    if lo ≤ b ∧ b ≤ hi then
      if more = 0 then some .start else some (.expect 0x80 0xBF (more - 1))
    else none

/-- Run the acceptor; a byte string is accepted when it ends at a codepoint
boundary. -/
def utf8Run : Utf8State → List Nat → Bool
  | .start, [] => true
  | .expect _ _ _, [] => false
  | st, b :: bs =>
    match utf8Next st b with
    | none => false
    | some st2 => utf8Run st2 bs

/-- RFC 3629 UTF-8 validity — the success condition of `String::from_utf8`
in load_lightning_mnemonic. -/
def isValidUtf8 (l : List Nat) : Bool := utf8Run .start l

/-! ## Mnemonic store / load (storage.rs) -/

/-- storage.rs `store_lightning_mnemonic`: the bytes written to
`<network_dir>/<checksum>/lightning/lightning_wallet.enc` — a version byte `1`
followed by `encrypt_chacha20(mnemonic, derive_encryption_key(..))` (the
random nonce is explicit). -/
def store_lightning_mnemonic (network_dir wallet_checksum : List Nat)
    (hostname : Option (List Nat)) (mnemonic nonce : List Nat) : List Nat :=
  1 :: encrypt_chacha20 mnemonic
      (derive_encryption_key network_dir wallet_checksum hostname) nonce

/-- storage.rs `load_lightning_mnemonic`; `file` is the content of the wallet
file (`none` when the file does not exist).  Errors: absent file, empty file,
unsupported version byte, and decryption to invalid UTF-8 — all
`BreezError::Config`. -/
def load_lightning_mnemonic (network_dir wallet_checksum : List Nat)
    (hostname : Option (List Nat)) (file : Option (List Nat)) :
    Except BreezError (List Nat) :=
  match file with
  | none => .error (.Config "Lightning wallet not found for Bitcoin wallet")
  | some [] => .error (.Config "Wallet file is empty")
  | some (version :: rest) =>
    if version ≠ 1 then
      .error (.Config "Unsupported wallet file version")
    else
      let decrypted := decrypt_chacha20 rest
        (derive_encryption_key network_dir wallet_checksum hostname)
      if isValidUtf8 decrypted then .ok decrypted
      else .error (.Config "Failed to decode mnemonic")

/-- The key layout as the claim of the spec words it (stated for comparison with
the `expandKey` of the source): the 32-byte key is the concatenation of the
little-endian encodings of `h`, `h+1`, `h+2` and `h+3`, with wrapping
addition. -/
def expandKeySpec (h : Nat) : List Nat :=
  u64ToLeBytes h ++ u64ToLeBytes ((h + 1) % 2 ^ 64) ++
    u64ToLeBytes ((h + 2) % 2 ^ 64) ++ u64ToLeBytes ((h + 3) % 2 ^ 64)

/-! ## Networks and SDK configuration (config.rs) -/

/-- Source `bitcoin::Network` (the variants matched by config.rs). -/
inductive Network where
  | Bitcoin | Testnet | Testnet4 | Signet | Regtest
  deriving DecidableEq, Repr

/-- Source `breez_sdk_liquid::prelude::LiquidNetwork`. -/
inductive LiquidNetwork where
  | Mainnet | Testnet | Regtest
  deriving DecidableEq, Repr

/-- The `BREEZ_API_KEY` environment lookup in config.rs and init.rs:
`std::env::var(..).ok().filter(|k| !k.is_empty())`. -/
def apiKeyFilter (apiKeyEnv : Option String) : Option String :=
  apiKeyEnv.filter (fun k => !k.isEmpty)

/-- Source `BreezConfig` (config.rs): the fields of the SDK `Config` the verified
paths depend on — the Liquid network, the stored API key, and the working
directory. -/
structure BreezConfig where
  liquidNetwork : LiquidNetwork
  apiKey : Option String
  workingDir : String
  deriving DecidableEq, Repr

/-- Source `BreezConfig::new(network, working_dir)` (config.rs lines 20–57): map the
Bitcoin network to a Liquid network, read and filter `BREEZ_API_KEY` (when the
key is missing the constructor only logs an error and continues), and build
the SDK config — `Config::regtest_esplora()` takes no API key. -/
def BreezConfig.new (network : Network) (workingDir : String)
    (apiKeyEnv : Option String) : BreezConfig :=
  let liquid := match network with
    | .Bitcoin => LiquidNetwork.Mainnet
    | .Testnet | .Testnet4 | .Signet => LiquidNetwork.Testnet
    | .Regtest => LiquidNetwork.Regtest
  let apiKey := apiKeyFilter apiKeyEnv
  { liquidNetwork := liquid
    apiKey := match liquid with
      | .Regtest => none
      | _ => apiKey
    workingDir := workingDir }

/-! ## Wallet manager (wallet.rs, `breez` feature enabled) -/

/-- Source `BreezWalletManager` (wallet.rs): an optional live SDK handle plus the
network.  SDK handles are abstract identifiers (`Nat`); the unused `config`
field is omitted. -/
structure BreezWalletManager where
  sdk : Option Nat
  network : Network
  deriving DecidableEq, Repr

/-- Modelled from the spec: `BreezWalletManager::new_placeholder` is called by
connection_manager.rs line 142 but its definition is not under src/.  Spec
§4.4: "A placeholder constructor exists to pre-populate the pool entry ...
without a real handle" — so the placeholder has no SDK handle. -/
def BreezWalletManager.new_placeholder (network : Network) : BreezWalletManager :=
  { sdk := none, network := network }

/-- Source `BreezError` `Display` (error.rs), for the constructors the embedding
produces; used by `get_or_create` to record `e.to_string()`. -/
def errToString : BreezError → String
  | .NotInitialized => "Breez SDK not initialized"
  | .InvalidMnemonic msg => "Invalid mnemonic: " ++ msg
  | .DerivationFailed msg => "Key derivation failed: " ++ msg
  | .InvalidPath msg => "Invalid derivation path: " ++ msg
  | .ConnectionFailed msg => "Failed to connect to Breez SDK: " ++ msg
  | .Config msg => "Configuration error: " ++ msg
  | .PrepareFailed msg => "Failed to prepare payment: " ++ msg
  | .SendFailed msg => "Failed to send payment: " ++ msg
  | .LimitsFetchFailed msg => "Failed to fetch payment limits: " ++ msg
  | .SdkError msg => "Breez SDK error: " ++ msg

/-- Result of `BreezWalletManager::initialize`, together with whether the
network connect (`LiquidSdk::connect`) was attempted. -/
structure InitOutcome where
  result : Except BreezError BreezWalletManager
  connectAttempted : Bool
  deriving Repr

/-- Source `BreezWalletManager::initialize(liana_mnemonic, network, data_dir)`
(wallet.rs lines 85–117): derive the seed from the mnemonic (external
bip39/bip32 computation, embedded as the oracle outcome `seed` whose errors
are the `InvalidMnemonic`/`DerivationFailed`/`InvalidPath` values produced by
`derive_breez_seed`), build the SDK config — there is no API-key check on
this path — and attempt `LiquidSdk::connect` (oracle `connect`, judging the
config it is given); a connect error is mapped to `ConnectionFailed`. -/
def BreezWalletManager.initializeFn (network : Network) (data_dir : String)
    (apiKeyEnv : Option String) (seed : Except BreezError Unit)
    (connect : BreezConfig → Except String Nat) : InitOutcome :=
  match seed with
  | .error e => ⟨.error e, false⟩
  | .ok () =>
    let config := BreezConfig.new network (data_dir ++ "/breez") apiKeyEnv
    match connect config with
    | .error e => ⟨.error (.ConnectionFailed e), true⟩
    | .ok handle => ⟨.ok { sdk := some handle, network := network }, true⟩

/-- Source `BreezWalletManager::disconnect` (wallet.rs lines 146–155): take the SDK
handle out; if this manager was the sole owner of the handle
(`sdkOtherOwners = 0`, the `Arc::try_unwrap` success condition), perform the
graceful network disconnect (oracle outcome `netErr`, `none` on success) and
map a failure to `SdkError`; otherwise succeed silently.  Returns the updated
manager, whether the network disconnect was invoked, and the result. -/
def BreezWalletManager.disconnectFn (m : BreezWalletManager)
    (sdkOtherOwners : Nat) (netErr : Option String) :
    BreezWalletManager × Bool × Except BreezError Unit :=
  match m.sdk with
  | none => ({ m with sdk := none }, false, .ok ())
  | some _ =>
    if sdkOtherOwners = 0 then
      match netErr with
      | none => ({ m with sdk := none }, true, .ok ())
      | some e => ({ m with sdk := none }, true, .error (.SdkError e))
    else ({ m with sdk := none }, false, .ok ())

/-! ## Connection pool (connection_manager.rs) -/

/-- Source `ConnectionState` (connection_manager.rs lines 23–34). -/
inductive ConnectionState where
  | NotInitialized
  | Initializing
  | Connected
  | Disconnected
  | Error (msg : String)
  deriving DecidableEq, Repr

/-- Source `ConnectionEntry` (connection_manager.rs lines 38–44), with the implicit
`Arc` reference counts made explicit: `managerOtherOwners` is the number of
owners of the `Arc<BreezWalletManager>` besides the pool entry itself, and
`sdkOtherOwners` the number of owners of the inner `Arc<LiquidSdk>` besides
the manager (`Arc::try_unwrap` succeeds exactly when the count is zero). -/
structure ConnectionEntry where
  manager : BreezWalletManager
  managerOtherOwners : Nat
  sdkOtherOwners : Nat
  state : ConnectionState
  wallet_checksum : String
  last_used : Nat
  deriving DecidableEq, Repr

/-- The `HashMap<String, ConnectionEntry>` pool, as an association list with
(at most) one binding per key. -/
abbrev Pool : Type := List (String × ConnectionEntry)

/-- Source `HashMap::get`. -/
def poolGet (p : Pool) (k : String) : Option ConnectionEntry :=
  (List.find? (fun e => e.1 == k) p).map (fun e => e.2)

/-- Source `HashMap::remove` (dropping the removed binding). -/
def poolRemove (p : Pool) (k : String) : Pool :=
  List.filter (fun e => !(e.1 == k)) p

/-- Source `HashMap::insert`. -/
def poolInsert (p : Pool) (k : String) (v : ConnectionEntry) : Pool :=
  (k, v) :: poolRemove p k

/-- Source `HashMap::get_mut` followed by an in-place update (no-op when absent). -/
def poolUpdate (p : Pool) (k : String) (f : ConnectionEntry → ConnectionEntry) : Pool :=
  List.map (fun e => if e.1 == k then (e.1, f e.2) else e) p

/-- Source `BreezConnectionManager::get_state` (connection_manager.rs lines 270–276):
the state of the entry, `NotInitialized` when no entry exists. -/
def get_state (p : Pool) (k : String) : ConnectionState :=
  ((poolGet p k).map (fun e => e.state)).getD .NotInitialized

/-- Result of `disconnect`: the updated pool, the returned result, whether the
inner SDK network disconnect was invoked, and whether a still-referenced
session was leaked (the `Arc::try_unwrap` failure branch, which only marks
the already-removed local entry as `Disconnected` before dropping it). -/
structure DisconnectResult where
  pool : Pool
  result : Except BreezError Unit
  networkDisconnected : Bool
  leaked : Bool
  deriving Repr

/-- Source `BreezConnectionManager::disconnect` (connection_manager.rs lines
209–234): remove the entry from the map; if there was one and the pool held
the only reference to its manager (`Arc::try_unwrap` succeeds), call the
disconnect of the manager and propagate its error; otherwise set the local,
state of the already removed local entry to `Disconnected`, leak the session, and
succeed.  `netErr` is the inner SDK disconnect outcome. -/
def disconnect (p : Pool) (k : String) (netErr : Option String) : DisconnectResult :=
  let entry := poolGet p k
  let p1 := poolRemove p k
  match entry with
  | none => ⟨p1, .ok (), false, false⟩
  | some e =>
    if e.managerOtherOwners = 0 then
      let d := e.manager.disconnectFn e.sdkOtherOwners netErr
      match d.2.2 with
      | .ok () => ⟨p1, .ok (), d.2.1, false⟩
      | .error err => ⟨p1, .error err, d.2.1, false⟩
    else
      ⟨p1, .ok (), false, true⟩

/-- Result of `get_or_create`: the updated pool, the returned result, and
whether a network connect was attempted. -/
structure GocResult where
  pool : Pool
  result : Except BreezError BreezWalletManager
  connectAttempted : Bool
  deriving Repr

/-- The (re)initialization path of `get_or_create` (connection_manager.rs
lines 136–200): insert a placeholder entry in state `Initializing`, attempt
`BreezWalletManager::initialize`; on failure set the entry state to
`Error(e.to_string())` and propagate the error, on success insert a
`Connected` entry with the new manager and return it. -/
def get_or_create_init (p : Pool) (network : Network) (data_dir : String)
    (wallet_checksum : String) (apiKeyEnv : Option String)
    (seed : Except BreezError Unit) (connect : BreezConfig → Except String Nat)
    (now : Nat) : GocResult :=
  let placeholder : ConnectionEntry :=
    { manager := BreezWalletManager.new_placeholder network
      managerOtherOwners := 0
      sdkOtherOwners := 0
      state := .Initializing
      wallet_checksum := wallet_checksum
      last_used := now }
  let p1 := poolInsert p wallet_checksum placeholder
  let breez_data_dir := data_dir ++ "/" ++ wallet_checksum ++ "/breez"
  let init := BreezWalletManager.initializeFn network breez_data_dir apiKeyEnv seed connect
  match init.result with
  | .error e =>
    ⟨poolUpdate p1 wallet_checksum (fun en => { en with state := .Error (errToString e) }),
      .error e, init.connectAttempted⟩
  | .ok mgr =>
    let entry : ConnectionEntry :=
      { manager := mgr
        -- the Arc is cloned into the pool and returned to the caller,
        -- so one owner besides the pool holds it
        managerOtherOwners := 1
        sdkOtherOwners := 0
        state := .Connected
        wallet_checksum := wallet_checksum
        last_used := now }
    ⟨poolInsert p1 wallet_checksum entry, .ok mgr, init.connectAttempted⟩

/-- Source `BreezConnectionManager::get_or_create` (connection_manager.rs lines
77–201): reuse a `Connected` entry (cloning its manager for the caller and
refreshing `last_used`), fail fast on `Initializing`, and otherwise fall
through to the initialization path. -/
def get_or_create (p : Pool) (network : Network) (data_dir : String)
    (wallet_checksum : String) (apiKeyEnv : Option String)
    (seed : Except BreezError Unit) (connect : BreezConfig → Except String Nat)
    (now : Nat) : GocResult :=
  match poolGet p wallet_checksum with
  | some entry =>
    match entry.state with
    | .Connected =>
        -- the caller receives a clone of the Arc, hence one more owner
        ⟨poolUpdate p wallet_checksum
            (fun e => { e with last_used := now,
                               managerOtherOwners := e.managerOtherOwners + 1 }),
          .ok entry.manager, false⟩
    | .Initializing =>
        ⟨p, .error (.Config "Connection initialization already in progress"), false⟩
    | _ => get_or_create_init p network data_dir wallet_checksum apiKeyEnv seed connect now
  | none => get_or_create_init p network data_dir wallet_checksum apiKeyEnv seed connect now

/-- The staleness filter of `cleanup_stale` (connection_manager.rs lines
300–315): state `Disconnected` or `Error(_)`, and
`now.duration_since(last_used).map(|d| d > stale_duration).unwrap_or(false)`
with a one-hour threshold (`duration_since` fails when `last_used` is in the
future, so such entries are kept). -/
def isStale (now : Nat) (e : ConnectionEntry) : Bool :=
  (match e.state with
    | .Disconnected => true
    | .Error _ => true
    | _ => false)
  && (if e.last_used ≤ now then decide (now - e.last_used > 3600) else false)

/-- The sweep loop of `cleanup_stale`: call `disconnect` for each collected
checksum, aborting on the first error (`?`).  Returns the final pool, the
result, and the checksums for which `disconnect` was invoked. -/
def cleanupLoop (netErrs : String → Option String) :
    Pool → List String → Pool × Except BreezError Unit × List String
  | p, [] => (p, .ok (), [])
  | p, k :: ks =>
    let d := disconnect p k (netErrs k)
    match d.result with
    | .error e => (d.pool, .error e, [k])
    | .ok () =>
      let r := cleanupLoop netErrs d.pool ks
      (r.1, r.2.1, k :: r.2.2)

/-- Source `BreezConnectionManager::cleanup_stale` (connection_manager.rs lines
296–323): collect the checksums of stale entries, then `disconnect` each. -/
def cleanup_stale (p : Pool) (now : Nat) (netErrs : String → Option String) :
    Pool × Except BreezError Unit × List String :=
  cleanupLoop netErrs p ((List.filter (fun kv => isStale now kv.2) p).map Prod.fst)

/-! ## Send panel (view/active/panel.rs and send.rs) -/

/-- Source `PrepareSendResponse` — the prepared send quote of the SDK, opaque here. -/
structure PrepareSendResponse where
  quoteId : Nat
  deriving DecidableEq, Repr

/-- The fields of `ActivePanel` (panel.rs lines 29–74) read or written by
`send_payment`. -/
structure ActivePanel where
  error : Option String
  preparing : Bool
  sending : Bool
  breez_manager : Option BreezWalletManager
  destination : String
  amount : String
  prepare_send_response : Option PrepareSendResponse
  deriving DecidableEq, Repr

/-- Source `ActivePanel::send_payment` (panel.rs lines 1454–1493): clear the error,
set `sending`; bail out (resetting `sending`, recording an error message,
issuing no task) when the manager is absent, when `manager.sdk()` fails
(wallet.rs: `sdk.clone().ok_or(NotInitialized)`), or when no prepared quote
is stored; otherwise spawn the network send with a clone of the stored quote.
The second component is the quote passed to `BreezSendManager::send_payment`
(send.rs lines 61–73), `none` when no network send is issued. -/
def send_payment (s : ActivePanel) : ActivePanel × Option PrepareSendResponse :=
  let s1 := { s with error := none, sending := true }
  match s1.breez_manager with
  | none => ({ s1 with error := some "Breez not initialized", sending := false }, none)
  | some mgr =>
    match mgr.sdk with
    | none => ({ s1 with error := some "Breez SDK not available", sending := false }, none)
    | some _ =>
      match s1.prepare_send_response with
      | none => ({ s1 with error := some "Please prepare payment first", sending := false }, none)
      | some prep => (s1, some prep)

/-! ## Background initialization (init.rs) -/

/-- The `BreezError::Config` message of the init.rs API-key check. -/
def apiKeyMissingMsg : String :=
  "BREEZ_API_KEY not set. Get a free API key from https://breez.technology/request-api-key/"

/-- Source `initialize_breez_sdk` (init.rs lines 12–43): check `BREEZ_API_KEY`
(absent or empty → hard `Config` error before anything else), then run
`BreezWalletManager::initialize` and set up the event listener (oracle
`listener`, failure mapped by `manager.sdk()` / `setup_event_listener`).
Returns the outcome plus whether a network connect was attempted. -/
def initialize_breez_sdk (network : Network) (data_dir : String)
    (apiKeyEnv : Option String) (seed : Except BreezError Unit)
    (connect : BreezConfig → Except String Nat)
    (listener : Except BreezError Unit) : InitOutcome :=
  if (apiKeyFilter apiKeyEnv).isNone then
    ⟨.error (.Config apiKeyMissingMsg), false⟩
  else
    let init := BreezWalletManager.initializeFn network data_dir apiKeyEnv seed connect
    match init.result with
    | .error e => ⟨.error e, init.connectAttempted⟩
    | .ok mgr =>
      match mgr.sdk with
      | none => ⟨.error .NotInitialized, init.connectAttempted⟩
      | some _ =>
        match listener with
        | .error e => ⟨.error e, init.connectAttempted⟩
        | .ok () => ⟨.ok mgr, init.connectAttempted⟩

/-! ## Concrete fixtures used by witnesses and counterexamples -/

/-- A `Connected` pool entry whose manager handle is also held by one owner
outside the pool. -/
def sharedOwnerEntry : ConnectionEntry where
  manager := { sdk := some 7, network := .Testnet }
  managerOtherOwners := 1
  sdkOtherOwners := 0
  state := .Connected
  wallet_checksum := "v1"
  last_used := 0

/-- A `Connected` entry solely owned by the pool. -/
def soleOwnerEntry : ConnectionEntry where
  manager := { sdk := some 7, network := .Testnet }
  managerOtherOwners := 0
  sdkOtherOwners := 0
  state := .Connected
  wallet_checksum := "v1"
  last_used := 0

/-- An entry in state `Initializing`. -/
def initializingEntry : ConnectionEntry where
  manager := BreezWalletManager.new_placeholder .Testnet
  managerOtherOwners := 0
  sdkOtherOwners := 0
  state := .Initializing
  wallet_checksum := "v1"
  last_used := 0

/-- A `Disconnected` entry last used at time 0 (stale by time 10000). -/
def staleEntry : ConnectionEntry where
  manager := { sdk := none, network := .Testnet }
  managerOtherOwners := 0
  sdkOtherOwners := 0
  state := .Disconnected
  wallet_checksum := "old"
  last_used := 0

/-- A `Connected` entry last used at time 0 (old but neither `Disconnected`
nor `Error`). -/
def freshEntry : ConnectionEntry where
  manager := { sdk := some 3, network := .Testnet }
  managerOtherOwners := 0
  sdkOtherOwners := 0
  state := .Connected
  wallet_checksum := "new"
  last_used := 0

/-- A send panel with a live manager and SDK handle but no prepared quote. -/
def panelNoQuote : ActivePanel where
  error := none
  preparing := false
  sending := false
  breez_manager := some { sdk := some 7, network := .Testnet }
  destination := "lnbc1"
  amount := "1000"
  prepare_send_response := none

theorem xorKeystream_involutive (key nonce : List Nat) :
    ∀ (i : Nat) (m : List Nat),
      xorKeystream key nonce i (xorKeystream key nonce i m) = m := by
  intro i m
  induction m generalizing i with
  | nil => simp [xorKeystream]
  | cons b bs ih =>
      simp only [xorKeystream, List.cons.injEq]
      refine ⟨?_, ih (i + 1)⟩
      rw [Nat.xor_assoc, Nat.xor_self, Nat.xor_zero]

theorem xorKeystream_length (key nonce : List Nat) :
    ∀ (i : Nat) (m : List Nat),
      (xorKeystream key nonce i m).length = m.length := by
  intro i m
  induction m generalizing i with
  | nil => rfl
  | cons b bs ih => simpa [xorKeystream] using ih (i + 1)

theorem take_append_len (l1 l2 : List Nat) : (l1 ++ l2).take l1.length = l1 := by
  simp

theorem drop_append_len (l1 l2 : List Nat) : (l1 ++ l2).drop l1.length = l2 := by
  simp

/-- Shared cipher round-trip fact: decryption undoes encryption for any
12-byte nonce. -/
theorem decrypt_encrypt_eq (m key nonce : List Nat) (h : nonce.length = 12) :
    decrypt_chacha20 (encrypt_chacha20 m key nonce) key = m := by
  have hlen : (encrypt_chacha20 m key nonce).length = 12 + m.length := by
    simp [encrypt_chacha20, xorKeystream_length, h]
  unfold decrypt_chacha20
  rw [if_neg (by omega)]
  unfold encrypt_chacha20
  rw [← h, take_append_len, drop_append_len, xorKeystream_involutive]

/-- C3: for every byte sequence `m` and every key `k`,
`decrypt_chacha20 (encrypt_chacha20 m k) k = m`, for every 12-byte nonce the
encryption step may draw. -/
theorem cipher_roundtrip_all_nonces (m key nonce : List Nat)
    (h : nonce.length = 12) :
    decrypt_chacha20 (encrypt_chacha20 m key nonce) key = m :=
  decrypt_encrypt_eq m key nonce h

/-- Witness for C3 at a concrete message, key and nonce. -/
theorem cipher_roundtrip_all_nonces_witness :
    decrypt_chacha20
        (encrypt_chacha20 [7, 200, 33] (List.replicate 32 42) (List.range 12))
        (List.replicate 32 42) = [7, 200, 33] :=
  cipher_roundtrip_all_nonces [7, 200, 33] (List.replicate 32 42)
    (List.range 12) (by decide)

/-- C9: a wallet file that exists, starts with version byte 1 and holds fewer
than 13 bytes in total loads as `Ok` with the empty string, because
`decrypt_chacha20` returns the empty vector on every input shorter than 12
bytes (and the empty byte string is valid UTF-8). -/
theorem decrypt_short (d key : List Nat) (hd : d.length < 12) :
    decrypt_chacha20 d key = [] := by
  unfold decrypt_chacha20
  rw [if_pos hd]

/-- Reduction of `load_lightning_mnemonic` on a version-1 file. -/
theorem load_version1 (nd cs : List Nat) (host : Option (List Nat))
    (rest : List Nat) :
    load_lightning_mnemonic nd cs host (some (1 :: rest)) =
      (if isValidUtf8 (decrypt_chacha20 rest
          (derive_encryption_key nd cs host)) then
        .ok (decrypt_chacha20 rest (derive_encryption_key nd cs host))
      else .error (.Config "Failed to decode mnemonic")) := rfl

theorem short_file_loads_empty (nd cs : List Nat) (host : Option (List Nat))
    (data : List Nat) (h1 : data.length < 13) (h2 : ∃ rest, data = 1 :: rest) :
    load_lightning_mnemonic nd cs host (some data) = .ok [] ∧
    (∀ d key : List Nat, d.length < 12 → decrypt_chacha20 d key = []) := by
  obtain ⟨rest, hrest⟩ := h2
  subst hrest
  have hr : rest.length < 12 := by
    simp only [List.length_cons] at h1
    omega
  refine ⟨?_, decrypt_short⟩
  rw [load_version1, decrypt_short rest _ hr]
  rfl

/-- Witness for C9: a one-byte file containing just the version byte. -/
theorem short_file_loads_empty_witness :
    load_lightning_mnemonic [] [] none (some [1]) = .ok [] :=
  (short_file_loads_empty [] [] none [1] (by decide) ⟨[], rfl⟩).1

/-- ASCII byte strings are valid UTF-8; every generated BIP39 English phrase
is ASCII, so this connects the output of `generate()` to the round-trip below. -/
theorem ascii_isValidUtf8 : ∀ m : List Nat, (∀ b ∈ m, b < 128) →
    isValidUtf8 m = true := by
  intro m hm
  induction m with
  | nil => rfl
  | cons b bs ih =>
      have hb : b < 128 := hm b (List.mem_cons_self b bs)
      simp only [isValidUtf8, utf8Run, utf8Next, if_pos hb]
      exact ih (fun x hx => hm x (List.mem_cons_of_mem b hx))

/-- C2: storing a mnemonic and loading it back returns exactly the stored
phrase (for any valid-UTF-8 phrase, hence for every generated 24-word
phrase, which is ASCII), and loading fails — always with a
`BreezError::Config` error — exactly when the file is absent, empty, carries
an unsupported version byte, or decrypts to invalid UTF-8. -/
theorem store_load_roundtrip_and_failures :
    (∀ (nd cs : List Nat) (host : Option (List Nat)) (m nonce : List Nat),
        nonce.length = 12 → isValidUtf8 m = true →
        load_lightning_mnemonic nd cs host
          (some (store_lightning_mnemonic nd cs host m nonce)) = .ok m) ∧
    (∀ (nd cs : List Nat) (host : Option (List Nat)) (file : Option (List Nat)),
        (∃ msg, load_lightning_mnemonic nd cs host file = .error (.Config msg)) ↔
          (file = none ∨ file = some [] ∨
            (∃ v rest, file = some (v :: rest) ∧ v ≠ 1) ∨
            (∃ rest, file = some (1 :: rest) ∧
              isValidUtf8 (decrypt_chacha20 rest
                (derive_encryption_key nd cs host)) = false))) := by
  constructor
  · intro nd cs host m nonce hn hval
    unfold store_lightning_mnemonic encrypt_chacha20
    rw [show (1 : Nat) :: (nonce ++ xorKeystream
          (derive_encryption_key nd cs host) nonce 0 m) =
        1 :: encrypt_chacha20 m (derive_encryption_key nd cs host) nonce from rfl]
    rw [load_version1, decrypt_encrypt_eq m _ nonce hn, hval]
    rfl
  · intro nd cs host file
    match file with
    | none => simp [load_lightning_mnemonic]
    | some [] => simp [load_lightning_mnemonic]
    | some (v :: rest) =>
      by_cases hv : v = 1
      · subst hv
        by_cases hu :
            isValidUtf8 (decrypt_chacha20 rest
              (derive_encryption_key nd cs host)) = true
        · rw [load_version1, if_pos hu]
          simp [hu]
        · rw [load_version1, if_neg hu]
          simp only [Bool.not_eq_true] at hu
          simp [hu]
      · have hload : load_lightning_mnemonic nd cs host (some (v :: rest)) =
            .error (.Config "Unsupported wallet file version") := by
          simp [load_lightning_mnemonic, hv]
        rw [hload]
        simp [hv]

/-- Witness for C2: round trip of a concrete ASCII phrase through a concrete
nonce, and the failure characterization at a concrete corrupt file. -/
theorem store_load_roundtrip_and_failures_witness :
    load_lightning_mnemonic [] [] none
        (some (store_lightning_mnemonic [] [] none [97, 98, 99] (List.range 12)))
      = .ok [97, 98, 99] ∧
    (∃ msg, load_lightning_mnemonic [] [] none (some [2, 0]) =
      .error (.Config msg)) :=
  ⟨store_load_roundtrip_and_failures.1 [] [] none [97, 98, 99] (List.range 12)
      (by decide) (by decide),
    (store_load_roundtrip_and_failures.2 [] [] none (some [2, 0])).mpr
      (Or.inr (Or.inr (Or.inl ⟨2, [0], rfl, by decide⟩)))⟩

/-! ### Key derivation (C4, C10) -/

theorem deriveKeyHash_lt (nd cs : List Nat) (host : Option (List Nat)) :
    deriveKeyHash nd cs host < 2 ^ 64 := by
  unfold deriveKeyHash SipHasher.finish
  exact Nat.mod_lt _ (by norm_num)

theorem leBytesAux_length : ∀ (k x : Nat), (leBytesAux k x).length = k
  | 0, _ => rfl
  | k + 1, x => by simp [leBytesAux, leBytesAux_length k]

theorem leBytesAux_inj : ∀ (k x y : Nat), x < 256 ^ k → y < 256 ^ k →
    leBytesAux k x = leBytesAux k y → x = y
  | 0, x, y, hx, hy, _ => by
      simp only [pow_zero, Nat.lt_one_iff] at hx hy
      omega
  | k + 1, x, y, hx, hy, h => by
      simp only [leBytesAux, List.cons.injEq] at h
      have hx2 : x / 256 < 256 ^ k := by
        rw [Nat.div_lt_iff_lt_mul (by norm_num)]
        calc x < 256 ^ (k + 1) := hx
          _ = 256 ^ k * 256 := by ring
      have hy2 : y / 256 < 256 ^ k := by
        rw [Nat.div_lt_iff_lt_mul (by norm_num)]
        calc y < 256 ^ (k + 1) := hy
          _ = 256 ^ k * 256 := by ring
      have hdiv := leBytesAux_inj k (x / 256) (y / 256) hx2 hy2 h.2
      have hmod := h.1
      omega

theorem expandKey_eq_spec (h : Nat) (hh : h < 2 ^ 64) :
    expandKey h = expandKeySpec h := by
  have hpow : (2 : Nat) ^ 64 = 18446744073709551616 := by norm_num
  have hh2 : h % 18446744073709551616 = h := Nat.mod_eq_of_lt (hpow ▸ hh)
  simp [expandKey, expandKeySpec, u64ToLeBytes, List.range_succ, hh2]

theorem expandKeySpec_inj (h1 h2 : Nat) (b1 : h1 < 2 ^ 64) (b2 : h2 < 2 ^ 64)
    (he : expandKeySpec h1 = expandKeySpec h2) : h1 = h2 := by
  unfold expandKeySpec u64ToLeBytes at he
  simp only [List.append_assoc] at he
  have hlen : (leBytesAux 8 h1).length = (leBytesAux 8 h2).length := by
    rw [leBytesAux_length, leBytesAux_length]
  have hfirst := (List.append_inj he hlen).1
  have h256 : (256 : Nat) ^ 8 = 2 ^ 64 := by norm_num
  exact leBytesAux_inj 8 h1 h2 (h256 ▸ b1) (h256 ▸ b2) hfirst

/-- C10: for every input, the 32-byte key is `expandKeySpec h` for the single
64-bit hash value `h = deriveKeyHash ..` — the concatenated little-endian
encodings of `h`, `h+1`, `h+2`, `h+3` with wrapping addition — so the key is
fully determined by a value below `2 ^ 64` and at most `2 ^ 64` distinct keys
are possible. -/
theorem key_determined_by_hash :
    ∀ (nd cs : List Nat) (host : Option (List Nat)),
      deriveKeyHash nd cs host < 2 ^ 64 ∧
      derive_encryption_key nd cs host = expandKeySpec (deriveKeyHash nd cs host) := by
  intro nd cs host
  refine ⟨deriveKeyHash_lt nd cs host, ?_⟩
  unfold derive_encryption_key
  exact expandKey_eq_spec _ (deriveKeyHash_lt nd cs host)

/-- C4 counterexample: `derive_encryption_key` factors through a 64-bit hash,
so by pigeonhole two distinct vault identifiers (with the same storage path
and hostname) share a key — the claimed universal injectivity is false. -/
theorem derive_key_not_injective :
    ∃ v1 v2 : List Nat, v1 ≠ v2 ∧
      derive_encryption_key [] v1 none = derive_encryption_key [] v2 none := by
  obtain ⟨v1, v2, hne, he⟩ :=
    Finite.exists_ne_map_eq_of_infinite
      (fun cs : List Nat =>
        (⟨deriveKeyHash [] cs none, deriveKeyHash_lt [] cs none⟩ : Fin (2 ^ 64)))
  refine ⟨v1, v2, hne, ?_⟩
  have hh : deriveKeyHash [] v1 none = deriveKeyHash [] v2 none :=
    congrArg Fin.val he
  unfold derive_encryption_key
  rw [hh]

/-- C4 (amended): `derive_encryption_key` is a pure function of path, vault
identifier and hostname (equal inputs give equal keys on every call), and two
inputs yield the same key exactly when their 64-bit `DefaultHasher` values
coincide — so distinct vault identifiers give distinct keys unless their
hashes collide, which by pigeonhole some pairs must. -/
theorem derive_key_eq_iff_hash_eq :
    ∀ (nd v1 v2 : List Nat) (host : Option (List Nat)),
      derive_encryption_key nd v1 host = derive_encryption_key nd v2 host ↔
        deriveKeyHash nd v1 host = deriveKeyHash nd v2 host := by
  intro nd v1 v2 host
  constructor
  · intro h
    unfold derive_encryption_key at h
    rw [expandKey_eq_spec _ (deriveKeyHash_lt nd v1 host),
      expandKey_eq_spec _ (deriveKeyHash_lt nd v2 host)] at h
    exact expandKeySpec_inj _ _ (deriveKeyHash_lt nd v1 host)
      (deriveKeyHash_lt nd v2 host) h
  · intro h
    unfold derive_encryption_key
    rw [h]

/-! ### Pool map lemmas -/

theorem poolGet_remove_self (p : Pool) (k : String) :
    poolGet (poolRemove p k) k = none := by
  induction p with
  | nil => rfl
  | cons a rest ih =>
      by_cases h : a.1 == k
      · simp only [poolRemove, List.filter, h, Bool.not_true] at ih ⊢
        exact ih
      · simp only [poolRemove, List.filter, h, Bool.not_false]
        simp only [poolGet, List.find?, h]
        simp only [poolRemove, poolGet] at ih
        exact ih

theorem poolGet_remove_ne (p : Pool) (k j : String) (h : (j == k) = false) :
    poolGet (poolRemove p k) j = poolGet p j := by
  induction p with
  | nil => rfl
  | cons a rest ih =>
      by_cases ha : a.1 == k
      · have haj : (a.1 == j) = false := by
          have h1 : a.1 = k := by simpa using ha
          have h2 : ¬ j = k := by simpa using h
          simp [h1]
          intro hc
          exact h2 hc.symm
        simp only [poolRemove, List.filter, ha, Bool.not_true] at *
        rw [ih]
        simp [poolGet, List.find?, haj]
      · simp only [poolRemove] at ih ⊢
        by_cases haj : a.1 == j
        · simp [List.filter, ha, poolGet, List.find?, haj]
        · simp only [List.filter, ha, Bool.not_false]
          simp [poolGet, List.find?, haj] at ih ⊢
          exact ih

theorem disconnect_pool_eq (p : Pool) (k : String) (netErr : Option String) :
    (disconnect p k netErr).pool = poolRemove p k := by
  unfold disconnect
  cases poolGet p k with
  | none => rfl
  | some e =>
      dsimp only
      by_cases h : e.managerOtherOwners = 0
      · rw [if_pos h]
        cases hd : (e.manager.disconnectFn e.sdkOtherOwners netErr).2.2 with
        | ok u => cases u; rfl
        | error err => rfl
      · rw [if_neg h]

/-! ### C5: fail fast while initializing -/

/-- C5: when the pool entry for a vault is `Initializing`, `get_or_create`
returns the already-initializing `Config` error, attempts no connect, and
returns the pool unchanged. -/
theorem get_or_create_fails_fast_when_initializing (p : Pool) (network : Network)
    (dd cs : String) (apiKeyEnv : Option String) (seed : Except BreezError Unit)
    (connect : BreezConfig → Except String Nat) (now : Nat) (e : ConnectionEntry)
    (hget : poolGet p cs = some e) (hstate : e.state = .Initializing) :
    get_or_create p network dd cs apiKeyEnv seed connect now =
      ⟨p, .error (.Config "Connection initialization already in progress"), false⟩ := by
  unfold get_or_create
  rw [hget]
  dsimp only
  rw [hstate]

/-- Witness for C5 at a concrete pool holding an `Initializing` entry. -/
theorem get_or_create_fails_fast_when_initializing_witness :
    get_or_create [("v1", initializingEntry)] .Testnet "" "v1" (some "key")
        (.ok ()) (fun _ => .error "unused") 5 =
      ⟨[("v1", initializingEntry)],
        .error (.Config "Connection initialization already in progress"), false⟩ :=
  get_or_create_fails_fast_when_initializing [("v1", initializingEntry)] .Testnet
    "" "v1" (some "key") (.ok ()) (fun _ => .error "unused") 5
    initializingEntry rfl rfl

/-! ### C6: sending requires a prepared quote -/

/-- C6: when no prepared quote is stored, `send_payment` records an error,
issues no network send, and leaves the stored quote state unchanged
(still absent). -/
theorem send_payment_requires_prepared_quote (s : ActivePanel)
    (h : s.prepare_send_response = none) :
    (send_payment s).2 = none ∧
    ((send_payment s).1.error).isSome = true ∧
    (send_payment s).1.prepare_send_response = none := by
  unfold send_payment
  cases hb : s.breez_manager with
  | none => simp [h]
  | some mgr =>
      cases hs : mgr.sdk with
      | none => simp [h, hs]
      | some handle => simp [h, hs]

/-- Witness for C6 at a concrete panel with a live SDK and no quote. -/
theorem send_payment_requires_prepared_quote_witness :
    (send_payment panelNoQuote).2 = none ∧
    ((send_payment panelNoQuote).1.error).isSome = true ∧
    (send_payment panelNoQuote).1.prepare_send_response = none :=
  send_payment_requires_prepared_quote panelNoQuote rfl

/-! ### C7: where the API-key check happens -/

/-- C7 counterexample: with no API key set, a valid seed and an empty pool,
`get_or_create` still attempts the network connect (the claim says every
initialization path fails with a `Config` error before any connect attempt);
the resulting error is the mapped connect failure, not a pre-connect
`Config` error. -/
theorem get_or_create_connects_without_api_key :
    (get_or_create [] .Testnet "" "v1" none (.ok ())
        (fun _ => .error "sdk refused") 0).connectAttempted = true ∧
    (get_or_create [] .Testnet "" "v1" none (.ok ())
        (fun _ => .error "sdk refused") 0).result =
      .error (.ConnectionFailed "sdk refused") := by
  constructor <;> rfl

/-- C7 (amended): `initialize_breez_sdk` (init.rs) fails with the hard
`Config` error before any connect when the filtered API key is absent; but
the `get_or_create` path performs no API-key check — whenever the seed
derivation succeeds and no `Connected`/`Initializing` entry short-circuits,
it attempts the network connect even with no API key set. -/
theorem api_key_checked_only_in_init_path :
    (∀ (network : Network) (dd : String) (apiKeyEnv : Option String)
        (seed : Except BreezError Unit) (connect : BreezConfig → Except String Nat)
        (listener : Except BreezError Unit),
        (apiKeyFilter apiKeyEnv).isNone = true →
        initialize_breez_sdk network dd apiKeyEnv seed connect listener =
          ⟨.error (.Config apiKeyMissingMsg), false⟩) ∧
    (∀ (p : Pool) (network : Network) (dd cs : String)
        (connect : BreezConfig → Except String Nat) (now : Nat),
        (poolGet p cs).map (fun e => e.state) ≠ some .Connected →
        (poolGet p cs).map (fun e => e.state) ≠ some .Initializing →
        (get_or_create p network dd cs none (.ok ()) connect now).connectAttempted
          = true) := by
  constructor
  · intro network dd apiKeyEnv seed connect listener hkey
    unfold initialize_breez_sdk
    rw [if_pos hkey]
  · intro p network dd cs connect now hc hi
    have hinit : ∀ dd2 : String,
        (BreezWalletManager.initializeFn network dd2 none (.ok ()) connect).connectAttempted
          = true := by
      intro dd2
      unfold BreezWalletManager.initializeFn
      cases hc3 : connect (BreezConfig.new network (dd2 ++ "/breez") none) with
      | ok handle => simp [hc3]
      | error e => simp [hc3]
    have hgoal : ∀ r : GocResult,
        r = get_or_create_init p network dd cs none (.ok ()) connect now →
        r.connectAttempted = true := by
      intro r hr
      subst hr
      unfold get_or_create_init
      cases hc2 : (BreezWalletManager.initializeFn network
          (dd ++ "/" ++ cs ++ "/breez") none (.ok ()) connect).result with
      | ok mgr =>
          dsimp only
          rw [hc2]
          exact hinit _
      | error e =>
          dsimp only
          rw [hc2]
          exact hinit _
    unfold get_or_create
    cases hg : poolGet p cs with
    | none => exact hgoal _ rfl
    | some e =>
        rw [hg] at hc hi
        simp only [Option.map_some'] at hc hi
        dsimp only
        cases hs : e.state with
        | Connected => rw [hs] at hc; exact absurd rfl hc
        | Initializing => rw [hs] at hi; exact absurd rfl hi
        | NotInitialized => exact hgoal _ rfl
        | Disconnected => exact hgoal _ rfl
        | Error msg => exact hgoal _ rfl

/-- Witness for the amended C7 statement: the init.rs check fires on an absent
key, and a concrete `get_or_create` with no key attempts the connect. -/
theorem api_key_checked_only_in_init_path_witness :
    initialize_breez_sdk .Testnet "" none (.ok ())
        (fun _ => .error "sdk refused") (.ok ()) =
      ⟨.error (.Config apiKeyMissingMsg), false⟩ ∧
    (get_or_create [] .Testnet "" "v2" none (.ok ())
        (fun _ => .error "sdk refused") 0).connectAttempted = true :=
  ⟨api_key_checked_only_in_init_path.1 .Testnet "" none (.ok ())
      (fun _ => .error "sdk refused") (.ok ()) rfl,
    api_key_checked_only_in_init_path.2 [] .Testnet "" "v2"
      (fun _ => .error "sdk refused") 0 (by simp [poolGet]) (by simp [poolGet])⟩

/-! ### C1: what disconnect does to the pool -/

/-- C1 counterexample: disconnecting a vault whose manager handle has another
outstanding owner still removes the pool entry — the pool does not record the
vault with state `Disconnected` (only a dropped local copy is marked), and
`get_state` afterwards is `NotInitialized`. -/
theorem disconnect_with_other_owner_removes_entry :
    (disconnect [("v1", sharedOwnerEntry)] "v1" none).leaked = true ∧
    poolGet (disconnect [("v1", sharedOwnerEntry)] "v1" none).pool "v1" = none ∧
    get_state (disconnect [("v1", sharedOwnerEntry)] "v1" none).pool "v1" =
      .NotInitialized ∧
    get_state (disconnect [("v1", sharedOwnerEntry)] "v1" none).pool "v1" ≠
      .Disconnected := by
  refine ⟨rfl, rfl, rfl, ?_⟩
  decide

/-- C1 (amended): `disconnect` removes the pool entry in every case, so
`get_state` afterwards is `NotInitialized` whether or not other owners
remain.  When the pool held the only manager reference, the manager
disconnect runs — performing the graceful network disconnect exactly when an
SDK handle is present and solely owned — and succeeds whenever the network
disconnect does.  When other owners remain, the session is leaked, no network
disconnect happens, and the call still returns success. -/
theorem disconnect_removes_entry_and_reports (p : Pool) (k : String)
    (netErr : Option String) :
    poolGet (disconnect p k netErr).pool k = none ∧
    get_state (disconnect p k netErr).pool k = .NotInitialized ∧
    (∀ e, poolGet p k = some e → e.managerOtherOwners = 0 →
        (disconnect p k netErr).networkDisconnected =
          (e.manager.sdk.isSome && (e.sdkOtherOwners == 0)) ∧
        (disconnect p k netErr).leaked = false ∧
        (netErr = none → (disconnect p k netErr).result = .ok ())) ∧
    (∀ e, poolGet p k = some e → e.managerOtherOwners ≠ 0 →
        (disconnect p k netErr).result = .ok () ∧
        (disconnect p k netErr).networkDisconnected = false ∧
        (disconnect p k netErr).leaked = true) := by
  have hpool := disconnect_pool_eq p k netErr
  have hget : poolGet (disconnect p k netErr).pool k = none := by
    rw [hpool]
    exact poolGet_remove_self p k
  refine ⟨hget, by simp [get_state, hget], ?_, ?_⟩
  · intro e hg h0
    unfold disconnect
    rw [hg]
    dsimp only
    rw [if_pos h0]
    unfold BreezWalletManager.disconnectFn
    cases hs : e.manager.sdk with
    | none => simp
    | some handle =>
        dsimp only
        by_cases hso : e.sdkOtherOwners = 0
        · rw [if_pos hso]
          cases netErr with
          | none => simp [hso]
          | some msg => simp [hso]
        · rw [if_neg hso]
          simp [hso]
  · intro e hg hn
    unfold disconnect
    rw [hg]
    dsimp only
    rw [if_neg hn]
    exact ⟨rfl, rfl, rfl⟩

/-- Witness for the amended C1 statement at concrete pools: a solely-owned
entry disconnects gracefully, a shared one is leaked but still removed. -/
theorem disconnect_removes_entry_and_reports_witness :
    poolGet (disconnect [("v1", soleOwnerEntry)] "v1" none).pool "v1" = none ∧
    (disconnect [("v1", soleOwnerEntry)] "v1" none).networkDisconnected = true ∧
    (disconnect [("v1", soleOwnerEntry)] "v1" none).result = .ok () ∧
    (disconnect [("v1", sharedOwnerEntry)] "v1" none).result = .ok () :=
  ⟨(disconnect_removes_entry_and_reports [("v1", soleOwnerEntry)] "v1" none).1,
    by
      have h := ((disconnect_removes_entry_and_reports [("v1", soleOwnerEntry)]
        "v1" none).2.2.1 soleOwnerEntry rfl rfl).1
      rw [h]
      decide,
    ((disconnect_removes_entry_and_reports [("v1", soleOwnerEntry)]
      "v1" none).2.2.1 soleOwnerEntry rfl rfl).2.2 rfl,
    ((disconnect_removes_entry_and_reports [("v1", sharedOwnerEntry)]
      "v1" none).2.2.2 sharedOwnerEntry rfl (by decide)).1⟩

/-! ### C8: the idle sweep -/

theorem disconnect_none_ok (p : Pool) (k : String) :
    (disconnect p k none).result = .ok () := by
  unfold disconnect
  cases poolGet p k with
  | none => rfl
  | some e =>
      dsimp only
      by_cases h : e.managerOtherOwners = 0
      · rw [if_pos h]
        unfold BreezWalletManager.disconnectFn
        cases e.manager.sdk with
        | none => rfl
        | some s =>
            dsimp only
            by_cases hso : e.sdkOtherOwners = 0
            · rw [if_pos hso]
            · rw [if_neg hso]
      · rw [if_neg h]

theorem cleanupLoop_all_ok (netErrs : String → Option String)
    (hnet : ∀ k, netErrs k = none) :
    ∀ (ks : List String) (p : Pool),
      cleanupLoop netErrs p ks = (ks.foldl poolRemove p, .ok (), ks) := by
  intro ks
  induction ks with
  | nil => intro p; rfl
  | cons k ks ih =>
      intro p
      unfold cleanupLoop
      rw [hnet k]
      dsimp only
      rw [disconnect_none_ok p k]
      dsimp only
      rw [disconnect_pool_eq p k none, ih (poolRemove p k)]
      rfl

theorem poolGet_foldl_remove : ∀ (ks : List String) (p : Pool) (k : String),
    poolGet (ks.foldl poolRemove p) k = if k ∈ ks then none else poolGet p k := by
  intro ks
  induction ks with
  | nil => intro p k; simp
  | cons k0 ks ih =>
      intro p k
      rw [List.foldl_cons, ih]
      by_cases hk : k ∈ ks
      · simp [hk]
      · by_cases he : k = k0
        · subst he
          simp [hk, poolGet_remove_self]
        · have hbeq : (k == k0) = false := by
            simp only [beq_eq_false_iff_ne, ne_eq]
            exact he
          rw [if_neg hk, poolGet_remove_ne p k0 k hbeq]
          have : ¬ k ∈ k0 :: ks := by
            simp [List.mem_cons, he, hk]
          rw [if_neg this]

theorem isStale_iff (now : Nat) (e : ConnectionEntry) :
    isStale now e = true ↔
      ((e.state = .Disconnected ∨ ∃ m, e.state = .Error m) ∧
        e.last_used + 3600 < now) := by
  unfold isStale
  have harith :
      (if e.last_used ≤ now then decide (now - e.last_used > 3600) else false)
        = true ↔ e.last_used + 3600 < now := by
    by_cases hle : e.last_used ≤ now
    · simp only [if_pos hle, decide_eq_true_eq]
      omega
    · simp only [if_neg hle, Bool.false_eq_true, false_iff]
      omega
  cases hst : e.state with
  | NotInitialized => simp [hst]
  | Initializing => simp [hst]
  | Connected => simp [hst]
  | Disconnected =>
      simp [hst]
      omega
  | Error msg =>
      simp [hst]
      omega

theorem mem_stale_map_iff (now : Nat) :
    ∀ (p : Pool), (p.map Prod.fst).Nodup → ∀ k : String,
      (k ∈ (List.filter (fun kv => isStale now kv.2) p).map Prod.fst ↔
        ∃ e, poolGet p k = some e ∧ isStale now e = true) := by
  intro p
  induction p with
  | nil =>
      intro _ k
      simp [poolGet]
  | cons a rest ih =>
      intro hnodup k
      have hcons : a.1 ∉ rest.map Prod.fst ∧ (rest.map Prod.fst).Nodup := by
        rw [List.map_cons] at hnodup
        exact List.nodup_cons.mp hnodup
      obtain ⟨ha, hrest⟩ := hcons
      have hsub : ((List.filter (fun kv => isStale now kv.2) rest).map Prod.fst)
          ⊆ rest.map Prod.fst :=
        ((List.filter_sublist rest).map Prod.fst).subset
      by_cases hk : k = a.1
      · subst hk
        have hget : poolGet (a :: rest) a.1 = some a.2 := by
          simp [poolGet, List.find?]
        by_cases hs : isStale now a.2
        · rw [List.filter_cons, if_pos (by simpa using hs), List.map_cons]
          simp only [List.mem_cons, hget]
          constructor
          · intro _
            exact ⟨a.2, rfl, hs⟩
          · intro _
            exact Or.inl trivial
        · rw [List.filter_cons, if_neg (by simpa using hs)]
          constructor
          · intro hmem
            exact absurd (hsub hmem) ha
          · rintro ⟨e, he1, he2⟩
            rw [hget] at he1
            cases he1
            exact absurd he2 hs
      · have hbeq : (a.1 == k) = false := by
          simp only [beq_eq_false_iff_ne, ne_eq]
          intro hc
          exact hk hc.symm
        have hget : poolGet (a :: rest) k = poolGet rest k := by
          simp [poolGet, List.find?, hbeq]
        rw [hget]
        by_cases hs : isStale now a.2
        · rw [List.filter_cons, if_pos (by simpa using hs), List.map_cons]
          simp only [List.mem_cons]
          rw [← ih hrest k]
          constructor
          · rintro (h1 | h2)
            · exact absurd h1 hk
            · exact h2
          · exact Or.inr
        · rw [List.filter_cons, if_neg (by simpa using hs)]
          exact ih hrest k

/-- C8: with inner disconnects succeeding, `cleanup_stale` removes exactly the
entries whose state is `Disconnected` or `Error` and whose `last_used`
predates `now` minus the one-hour threshold, invoking `disconnect` for each
removed checksum; every younger entry, and every entry in another state
regardless of age, is retained untouched. -/
theorem cleanup_stale_removes_exactly_stale (p : Pool) (now : Nat)
    (netErrs : String → Option String)
    (hnodup : (p.map Prod.fst).Nodup) (hnet : ∀ k, netErrs k = none) :
    (cleanup_stale p now netErrs).2.1 = .ok () ∧
    (∀ k e, poolGet p k = some e →
        (((e.state = .Disconnected ∨ ∃ m, e.state = .Error m) ∧
            e.last_used + 3600 < now) →
          poolGet (cleanup_stale p now netErrs).1 k = none ∧
          k ∈ (cleanup_stale p now netErrs).2.2) ∧
        (¬ ((e.state = .Disconnected ∨ ∃ m, e.state = .Error m) ∧
            e.last_used + 3600 < now) →
          poolGet (cleanup_stale p now netErrs).1 k = some e ∧
          k ∉ (cleanup_stale p now netErrs).2.2)) ∧
    (∀ k, poolGet p k = none →
        poolGet (cleanup_stale p now netErrs).1 k = none) := by
  have hloop := cleanupLoop_all_ok netErrs hnet
    ((List.filter (fun kv => isStale now kv.2) p).map Prod.fst) p
  unfold cleanup_stale
  rw [hloop]
  refine ⟨rfl, ?_, ?_⟩
  · intro k e hget
    constructor
    · intro hstale
      have hk : k ∈ (List.filter (fun kv => isStale now kv.2) p).map Prod.fst :=
        (mem_stale_map_iff now p hnodup k).mpr
          ⟨e, hget, (isStale_iff now e).mpr hstale⟩
      refine ⟨?_, hk⟩
      rw [poolGet_foldl_remove, if_pos hk]
    · intro hnst
      have hk : k ∉ (List.filter (fun kv => isStale now kv.2) p).map Prod.fst := by
        intro hmem
        obtain ⟨e2, hget2, hs2⟩ := (mem_stale_map_iff now p hnodup k).mp hmem
        rw [hget] at hget2
        cases hget2
        exact hnst ((isStale_iff now e).mp hs2)
      refine ⟨?_, hk⟩
      rw [poolGet_foldl_remove, if_neg hk, hget]
  · intro k hnone
    rw [poolGet_foldl_remove]
    by_cases hk : k ∈ (List.filter (fun kv => isStale now kv.2) p).map Prod.fst
    · rw [if_pos hk]
    · rw [if_neg hk, hnone]

/-- Witness for C8 at a concrete pool: a one-hour-stale `Disconnected` entry
is removed and disconnected, a `Connected` entry of the same age is kept. -/
theorem cleanup_stale_removes_exactly_stale_witness :
    poolGet (cleanup_stale [("old", staleEntry), ("new", freshEntry)] 10000
        (fun _ => none)).1 "old" = none ∧
    "old" ∈ (cleanup_stale [("old", staleEntry), ("new", freshEntry)] 10000
        (fun _ => none)).2.2 ∧
    poolGet (cleanup_stale [("old", staleEntry), ("new", freshEntry)] 10000
        (fun _ => none)).1 "new" = some freshEntry ∧
    "new" ∉ (cleanup_stale [("old", staleEntry), ("new", freshEntry)] 10000
        (fun _ => none)).2.2 := by
  have h := cleanup_stale_removes_exactly_stale
    [("old", staleEntry), ("new", freshEntry)] 10000 (fun _ => none)
    (by decide) (fun _ => rfl)
  have hold := (h.2.1 "old" staleEntry rfl).1 ⟨Or.inl rfl, by decide⟩
  have hnew := (h.2.1 "new" freshEntry rfl).2 (by
    rintro ⟨h1 | ⟨m, hm⟩, h2⟩
    · exact absurd h1 (by decide)
    · simp [freshEntry] at hm)
  exact ⟨hold.1, hold.2, hnew.1, hnew.2⟩

end Breez
